import Mathlib

/-!
Shallow embedding of `src/activity.ts` (discord-vscode) and proofs of the
specification claims.

The module assembles a rich-presence payload (`activity`) from the host
editor state, selecting templates by mode (idle / editing / debugging) and
substituting placeholder tokens (`details`, `fileDetails`).

Strings are modelled as `List Char`.  The JavaScript string operations the
source relies on are embedded with their actual semantics:
`String.prototype.replace` with a *string* pattern replaces only the first
occurrence; `includes` is substring containment; `split` splits on every
occurrence of the separator.  Thrown exceptions (`TypeError` on a property
access of `undefined`) are modelled with `Except Unit`.
-/

namespace Activity

abbrev Str := List Char

/-- First-occurrence search: the pieces of `s` before and after the first
occurrence of `pat`, or `none` when `pat` does not occur in `s`. -/
def splitFirst (pat : Str) : Str → Option (Str × Str)
  | [] => if pat.isEmpty then some ([], []) else none
  | c :: rest =>
    if pat.isPrefixOf (c :: rest) then some ([], (c :: rest).drop pat.length)
    else
      match splitFirst pat rest with
      | none => none
      | some (pre, post) => some (c :: pre, post)

/-- JS `s.includes(pat)`. -/
def strContains (s pat : Str) : Bool := (splitFirst pat s).isSome

/-- JS `s.replace(pat, rep)` with a string pattern: replaces the first
occurrence only, and is the identity when `pat` does not occur. -/
def replaceFirst (s pat rep : Str) : Str :=
  match splitFirst pat s with
  | none => s
  | some (pre, post) => pre ++ rep ++ post

/-- The `if (raw.includes(tok)) raw = raw.replace(tok, val)` idiom used for
each scanned token of `fileDetails`. -/
def condReplace (raw tok val : Str) : Str :=
  if strContains raw tok then replaceFirst raw tok val else raw

/-- JS `String.prototype.split` with a single-character separator. -/
def splitChar (c : Char) : Str → List Str
  | [] => [[]]
  | a :: rest =>
    match splitChar c rest with
    | [] => [[]]
    | s :: ss => if a = c then [] :: s :: ss else (a :: s) :: ss

/-- JS `String.prototype.padEnd`: pads with repetitions of `pad` up to
length `n`; returns the string unchanged when `pad` is empty or the string
is already long enough. -/
def padEnd (s : Str) (n : ℕ) (pad : Str) : Str :=
  if pad.isEmpty then s
  else if n ≤ s.length then s
  else s ++ List.take (n - s.length) (List.flatten (List.replicate (n - s.length) pad))

/-- Asserts that `pat` occurs in `pre ++ pat ++ post` at no position before
`pre.length`: the occurrence between `pre` and `post` is the first. -/
def firstOccAt (pat pre post : Str) : Prop :=
  ∀ i, i < pre.length → pat.isPrefixOf ((pre ++ pat ++ post).drop i) = false

instance (pat pre post : Str) : Decidable (firstOccAt pat pre post) :=
  Nat.decidableBallLT _ _

theorem replaceFirst_of_not_contains (s pat rep : Str) (h : strContains s pat = false) :
    replaceFirst s pat rep = s := by
  unfold replaceFirst
  cases hsp : splitFirst pat s with
  | none => rfl
  | some pr => simp [strContains, hsp] at h

theorem isPrefixOf_append_self (l t : Str) : l.isPrefixOf (l ++ t) = true := by
  induction l with
  | nil => simp [List.isPrefixOf]
  | cons a l ih => simp [List.isPrefixOf, ih]

theorem splitFirst_append_self (pat post : Str) :
    splitFirst pat (pat ++ post) = some ([], post) := by
  cases h : pat ++ post with
  | nil =>
    have hp : pat = [] := by cases pat <;> simp_all
    have hq : post = [] := by subst hp; simpa using h
    subst hp; subst hq; rfl
  | cons c r =>
    have hpre : pat.isPrefixOf (c :: r) = true := by
      rw [← h]; exact isPrefixOf_append_self pat post
    have hdrop : (c :: r).drop pat.length = post := by
      rw [← h]; exact List.drop_left pat post
    simp [splitFirst, hpre, hdrop]

theorem splitFirst_firstOcc (pat pre post : Str) (h : firstOccAt pat pre post) :
    splitFirst pat (pre ++ pat ++ post) = some (pre, post) := by
  induction pre with
  | nil => simpa using splitFirst_append_self pat post
  | cons a pre ih =>
    have h0 : pat.isPrefixOf (a :: (pre ++ pat ++ post)) = false := by
      have h' := h 0 (by simp)
      simpa using h'
    have hrec : firstOccAt pat pre post := by
      intro i hi
      have h' := h (i + 1) (by simpa using Nat.succ_lt_succ hi)
      simpa using h'
    show splitFirst pat (a :: (pre ++ pat ++ post)) = some (a :: pre, post)
    unfold splitFirst
    rw [h0]
    simp only [Bool.false_eq_true, if_false]
    rw [ih hrec]

theorem strContains_firstOcc (pat pre post : Str) (h : firstOccAt pat pre post) :
    strContains (pre ++ pat ++ post) pat = true := by
  unfold strContains
  rw [splitFirst_firstOcc pat pre post h]
  rfl

theorem replaceFirst_firstOcc (pat pre post rep : Str) (h : firstOccAt pat pre post) :
    replaceFirst (pre ++ pat ++ post) pat rep = pre ++ rep ++ post := by
  unfold replaceFirst
  rw [splitFirst_firstOcc pat pre post h]

theorem condReplace_not (raw tok val : Str) (h : strContains raw tok = false) :
    condReplace raw tok val = raw := by
  simp [condReplace, h]

theorem condReplace_firstOcc (tok pre post val : Str) (h : firstOccAt tok pre post) :
    condReplace (pre ++ tok ++ post) tok val = pre ++ val ++ post := by
  unfold condReplace
  rw [strContains_firstOcc tok pre post h, if_pos rfl]
  exact replaceFirst_firstOcc tok pre post val h

theorem strContains_append_right (xs s pat : Str) (h : strContains s pat = true) :
    strContains (xs ++ s) pat = true := by
  induction xs with
  | nil => simpa using h
  | cons a xs ih =>
    show strContains (a :: (xs ++ s)) pat = true
    unfold strContains splitFirst
    cases hp : pat.isPrefixOf (a :: (xs ++ s)) with
    | true => simp
    | false =>
      simp only [Bool.false_eq_true, if_false]
      unfold strContains at ih
      cases hs : splitFirst pat (xs ++ s) with
      | none => rw [hs] at ih; simp at ih
      | some pr => simp [hs]

/-- Modelled from the spec: the token strings and fixed constants imported
from `./constants`, a module of this repository that is not under `src/`.
The assembler is proved parametrically in these values; `defaultConstants`
below instantiates them with the spellings the spec names. -/
structure Constants where
  Empty : Str
  FileName : Str
  DirName : Str
  FullDirName : Str
  Workspace : Str
  WorkspaceFolder : Str
  WorkspaceAndFolder : Str
  LanguageLowerCase : Str
  LanguageTitleCase : Str
  LanguageUpperCase : Str
  TotalLines : Str
  CurrentLine : Str
  CurrentColumn : Str
  FileSize : Str
  AppName : Str
  GitRepoName : Str
  GitBranch : Str
  EMPTY : Str
  UNKNOWN_GIT_BRANCH : Str
  UNKNOWN_GIT_REPO_NAME : Str
  FILE_SIZES : List Str
  IDLE_IMAGE_KEY : Str
  DEBUG_IMAGE_KEY : Str
  VSCODE_IMAGE_KEY : Str
  VSCODE_INSIDERS_IMAGE_KEY : Str

/-- A git remote (`./git` declarations): `fetchUrl` is optional. -/
structure Remote where
  fetchUrl : Option Str

/-- The optional `HEAD` of a repository; its `name` is itself optional. -/
structure HeadRef where
  name : Option Str

structure RepoUI where
  selected : Bool

structure RepoState where
  HEAD : Option HeadRef
  remotes : List Remote

structure Repository where
  ui : RepoUI
  state : RepoState

/-- The API obtained by `extensions.getExtension('vscode.git')?.exports.getAPI(1)`:
the repositories list of the installed git integration. -/
structure GitAPI where
  repositories : List Repository

structure Selection where
  line : ℕ
  character : ℕ

structure Document where
  fileName : Str
  languageId : Str
  lineCount : ℕ

structure Editor where
  document : Document
  selection : Selection

structure WorkspaceFolder where
  name : Str

/-- The host editor state read through the VS Code extension API, plus the
helpers from `./util` (a module of this repository not under `src/`),
abstracted as data.  `now` models `Date.now()` at the time of the call;
`statSize` models the byte size returned by `workspace.fs.stat` for the
active document (the stat itself is the caller's responsibility on I/O
failure, per the spec); `numToLocale` models `Number.prototype.toLocaleString`;
`gitAPI = none` models an absent git integration. -/
structure Env where
  appName : Str
  activeDebugSession : Bool
  activeTextEditor : Option Editor
  workspaceName : Option Str
  workspaceFolder : Option WorkspaceFolder
  gitAPI : Option GitAPI
  statSize : ℕ
  now : ℕ
  numToLocale : ℕ → Str
  resolveFileIcon : Document → Str
  asRelativePath : Str → Str

/-- The configuration values read through `getConfig()` at the keys the
module uses. -/
structure Config where
  detailsIdling : Str
  detailsEditing : Str
  detailsDebugging : Str
  lowerDetailsIdling : Str
  lowerDetailsEditing : Str
  lowerDetailsDebugging : Str
  lowerDetailsNoWorkspaceFound : Str
  largeImageIdling : Str
  largeImage : Str
  smallImage : Str

/-- The `ActivityPayload` interface.  Optional fields are `none` when never
assigned; `startTimestamp = none` models both `undefined` and `null`, which
the `??` operator treats alike.  The source field `instance` is a Lean
keyword and is embedded as `instanceFlag`. -/
structure ActivityPayload where
  details : Option Str := none
  state : Option Str := none
  startTimestamp : Option ℕ := none
  largeImageKey : Option Str := none
  largeImageText : Option Str := none
  smallImageKey : Option Str := none
  smallImageText : Option Str := none
  partyId : Option Str := none
  partySize : Option ℕ := none
  partyMax : Option ℕ := none
  matchSecret : Option Str := none
  joinSecret : Option Str := none
  spectateSecret : Option Str := none
  instanceFlag : Option Bool := none

/-- Line 145 calls `document.toLocaleString()`: `TextDocument` defines no
`toLocaleString`, so JavaScript falls back to
`Object.prototype.toLocaleString`, which returns `this.toString()` —
the default object stringification. -/
def objectToLocaleString : Str := "[object Object]".toList

/-- Interpolating the out-of-range `FILE_SIZES[currentDivision]`
(`undefined`) into a template literal renders the text `undefined`. -/
def undefinedStr : Str := "undefined".toList

/-- Renders the two decimal digits of `Number.prototype.toFixed(2)`. -/
def twoDigits (r : ℕ) : Str :=
  if r < 10 then '0' :: (Nat.repr r).toList else (Nat.repr r).toList

/-- JS `Number.prototype.toFixed(2)` on a nonnegative value, idealized over
ℚ: round half up to two decimals and render both digits. -/
def toFixed2 (q : ℚ) : Str :=
  let n : ℤ := Int.floor (q * 100 + 1 / 2)
  (Nat.repr (n / 100).toNat).toList ++ '.' :: twoDigits (n % 100).toNat

/-- The `while (size > 1000) { currentDivision++; size /= 1000; }` loop of
`fileDetails` (lines 163-166), idealized over ℚ. -/
def fsLoop (size : ℚ) (div : ℕ) : ℚ × ℕ :=
  if 1000 < size then fsLoop (size / 1000) (div + 1) else (size, div)
termination_by (Int.ceil size).toNat
decreasing_by
  have hle : size ≤ (Int.ceil size : ℚ) := Int.le_ceil size
  have hc : (1000 : ℤ) < Int.ceil size := by
    have : (1000 : ℚ) < (Int.ceil size : ℚ) := lt_of_lt_of_le (by assumption) hle
    exact_mod_cast this
  have hstep : Int.ceil (size / 1000) ≤ Int.ceil size - 1 := by
    apply Int.ceil_le.mpr
    push_cast
    nlinarith
  omega

/-- The file-size formatting of `fileDetails` lines 156-172: the value
substituted for the file-size token, given the stat size in bytes. -/
def formatFileSize (ks : Constants) (size0 : ℕ) : Str :=
  if 1000 < size0 then
    let r := fsLoop ((size0 : ℚ) / 1000) 1
    toFixed2 r.1 ++ ks.FILE_SIZES.getD r.2 undefinedStr
  else (Nat.repr size0).toList ++ ks.FILE_SIZES.getD 0 undefinedStr

/-- The value substituted for the git-branch token (lines 175-184).  When
`git?.repositories.length` is truthy it is
`git.repositories.find(repo => repo.ui.selected)?.state.HEAD?.name ?? EMPTY`;
otherwise the `UNKNOWN_GIT_BRANCH` sentinel. -/
def branchReplacementValue (ks : Constants) (git : Option GitAPI) : Str :=
  match git with
  | none => ks.UNKNOWN_GIT_BRANCH
  | some g =>
    if g.repositories.length != 0 then
      ((((g.repositories.find? fun repo => repo.ui.selected).bind
          fun repo => repo.state.HEAD).bind fun h => h.name).getD ks.EMPTY)
    else ks.UNKNOWN_GIT_BRANCH

/-- The value substituted for the git-repo-name token (lines 186-197).  When
`git?.repositories.length` is truthy the source evaluates
`git.repositories.find(repo => repo.ui.selected)?.state.remotes[0].fetchUrl?.split('/')[1].replace('.git', '') ?? EMPTY`:
the optional chain short-circuits to `EMPTY` when no repository is selected
or when `fetchUrl` is absent, but accessing `.fetchUrl` on an absent
`remotes[0]`, or `.replace` on an absent `split('/')[1]`, throws a
`TypeError` (modelled as `Except.error ()`). -/
def repoNameReplacementValue (ks : Constants) (git : Option GitAPI) : Except Unit Str :=
  match git with
  | none => .ok ks.UNKNOWN_GIT_REPO_NAME
  | some g =>
    if g.repositories.length != 0 then
      match g.repositories.find? fun repo => repo.ui.selected with
      | none => .ok ks.EMPTY
      | some repo =>
        match repo.state.remotes.head? with
        | none => .error ()
        | some remote =>
          match remote.fetchUrl with
          | none => .ok ks.EMPTY
          | some url =>
            match (splitChar '/' url)[1]? with
            | none => .error ()
            | some seg => .ok (replaceFirst seg (".git".toList) [])
    else .ok ks.UNKNOWN_GIT_REPO_NAME

/-- Lines 139-201, `fileDetails`: scans each token type once, in source
order, replacing its first occurrence when present.  The file-size stat is
supplied by `env.statSize`; the git-repo-name step can throw.  The
`document` argument is read only through `document.toLocaleString()`
(the constant `objectToLocaleString`) and `workspace.fs.stat(document.uri)`
(`env.statSize`), so it does not otherwise appear in the body. -/
def fileDetails (ks : Constants) (env : Env) (doc : Document) (sel : Selection)
    (raw0 : Str) : Except Unit Str :=
  let raw1 := condReplace raw0 ks.TotalLines objectToLocaleString
  let raw2 := condReplace raw1 ks.CurrentLine (env.numToLocale (sel.line + 1))
  let raw3 := condReplace raw2 ks.CurrentColumn (env.numToLocale (sel.character + 1))
  let raw4 := condReplace raw3 ks.FileSize (formatFileSize ks env.statSize)
  let raw5 := condReplace raw4 ks.GitBranch (branchReplacementValue ks env.gitAPI)
  if strContains raw5 ks.GitRepoName then
    match repoNameReplacementValue ks env.gitAPI with
    | .error e => .error e
    | .ok v => .ok (replaceFirst raw5 ks.GitRepoName v)
  else .ok raw5

/-- Modelled from the spec: `path.sep`, fixed to the POSIX separator. -/
def sepChar : Char := '/'

/-- Modelled from the spec: node's `path.basename` — the final path
segment. -/
def basename (s : Str) : Str := ((splitChar sepChar s).getLast?).getD []

/-- Modelled from the spec: node's `path.parse(p).dir` — everything before
the final separator. -/
def parseDir (s : Str) : Str :=
  List.intercalate [sepChar] (splitChar sepChar s).dropLast

/-- Modelled from the spec: `toLower` from `./util` (not under `src/`). -/
def toLowerStr (s : Str) : Str := s.map Char.toLower

/-- Modelled from the spec: `toUpper` from `./util` (not under `src/`). -/
def toUpperStr (s : Str) : Str := s.map Char.toUpper

/-- Modelled from the spec: `toTitle` from `./util` (not under `src/`) —
the language identifier in title casing. -/
def toTitleStr (s : Str) : Str :=
  match s with
  | [] => []
  | c :: r => Char.toUpper c :: toLowerStr r

/-- Lines 98-133 of `details`: the processing applied when an editor is
active, after the raw template has been chosen (`chosen` is the debugging
or editing template).  Replaces the full-dir-name token when a workspace
folder exists, delegates to `fileDetails`, then folds in the filename,
dirname, workspace and language placeholders. -/
def editorDetails (ks : Constants) (cfg : Config) (env : Env) (ed : Editor)
    (chosen : Str) : Except Unit Str :=
  let fileName := basename ed.document.fileName
  let dir := parseDir ed.document.fileName
  let split := splitChar sepChar dir
  let dirName := (split.getLast?).getD []
  let noWorkspaceFound :=
    replaceFirst cfg.lowerDetailsNoWorkspaceFound ks.Empty ks.EMPTY
  let workspaceFolderName := (env.workspaceFolder.map WorkspaceFolder.name).getD noWorkspaceFound
  let workspaceName := env.workspaceName.getD workspaceFolderName
  let workspaceAndFolder := workspaceName ++
    (if workspaceFolderName = ks.EMPTY then [] else (" - ".toList ++ workspaceFolderName))
  let fileIcon := env.resolveFileIcon ed.document
  let raw1 := match env.workspaceFolder with
    | some wf =>
      let relativePath := (splitChar sepChar (env.asRelativePath ed.document.fileName)).dropLast
      replaceFirst chosen ks.FullDirName
        (wf.name ++ sepChar :: List.intercalate [sepChar] relativePath)
    | none => chosen
  match fileDetails ks env ed.document ed.selection raw1 with
  | .error e => .error e
  | .ok r =>
    .ok (replaceFirst (replaceFirst (replaceFirst (replaceFirst (replaceFirst
      (replaceFirst (replaceFirst (replaceFirst r
        ks.FileName fileName)
        ks.DirName dirName)
        ks.Workspace workspaceName)
        ks.WorkspaceFolder workspaceFolderName)
        ks.WorkspaceAndFolder workspaceAndFolder)
        ks.LanguageLowerCase (toLowerStr fileIcon))
        ks.LanguageTitleCase (toTitleStr fileIcon))
        ks.LanguageUpperCase (toUpperStr fileIcon))

/-- Lines 93-137, `details`.  With no active editor the result is the
idling template with the empty-value token replaced; with an active editor
the raw template is overwritten by the debugging or editing template and
processed by `editorDetails`. -/
def details (ks : Constants) (cfg : Config) (env : Env)
    (idling editing debugging : Str) : Except Unit Str :=
  match env.activeTextEditor with
  | none => .ok (replaceFirst idling ks.Empty ks.EMPTY)
  | some ed =>
    editorDetails ks cfg env ed (if env.activeDebugSession then debugging else editing)

/-- Lines 37-91, `activity`.  Composes the payload: both text fields via
`details`, the carried-forward or fresh start timestamp, and the image
keys; with an active editor whose language id is not `'Log'`, the large
image is resolved from the document and both text fields are recomputed. -/
def activity (ks : Constants) (cfg : Config) (env : Env)
    (previous : ActivityPayload) : Except Unit ActivityPayload :=
  let appName := env.appName
  let defaultSmallImageKey :=
    if env.activeDebugSession then ks.DEBUG_IMAGE_KEY
    else if strContains appName ("Insiders".toList) then ks.VSCODE_INSIDERS_IMAGE_KEY
    else ks.VSCODE_IMAGE_KEY
  match details ks cfg env cfg.detailsIdling cfg.detailsEditing cfg.detailsDebugging with
  | .error e => .error e
  | .ok d0 =>
  match details ks cfg env cfg.lowerDetailsIdling cfg.lowerDetailsEditing cfg.lowerDetailsDebugging with
  | .error e => .error e
  | .ok s0 =>
    let state0 : ActivityPayload := {
      details := some d0
      state := some s0
      startTimestamp := some (previous.startTimestamp.getD env.now)
      largeImageKey := some ks.IDLE_IMAGE_KEY
      largeImageText := some cfg.largeImageIdling
      smallImageKey := some defaultSmallImageKey
      smallImageText := some (replaceFirst cfg.smallImage ks.AppName appName) }
    match env.activeTextEditor with
    | none => .ok state0
    | some ed =>
      if ed.document.languageId = "Log".toList then .ok state0
      else
        let largeImageKey := env.resolveFileIcon ed.document
        let largeImageText := padEnd
          (replaceFirst (replaceFirst (replaceFirst cfg.largeImage
            ks.LanguageLowerCase (toLowerStr largeImageKey))
            ks.LanguageTitleCase (toTitleStr largeImageKey))
            ks.LanguageUpperCase (toUpperStr largeImageKey)) 2 ks.EMPTY
        match details ks cfg env cfg.detailsIdling cfg.detailsEditing cfg.detailsDebugging with
        | .error e => .error e
        | .ok d1 =>
        match details ks cfg env cfg.lowerDetailsIdling cfg.lowerDetailsEditing cfg.lowerDetailsDebugging with
        | .error e => .error e
        | .ok s1 =>
          .ok { state0 with
            details := some d1
            state := some s1
            largeImageKey := some largeImageKey
            largeImageText := some largeImageText }

/-- Modelled from the spec: a concrete instance of the `./constants`
values, spelled after the token names the spec lists (total-lines,
current-line, current-column, file-size, git-branch, git-repo-name,
filename, dirname, workspace, workspace-folder, full-dir-name,
language-name in three casings, empty-value sentinel, the fixed
"unknown" sentinels and the file-size unit suffixes). -/
def defaultConstants : Constants where
  Empty := "{empty}".toList
  FileName := "{file_name}".toList
  DirName := "{dir_name}".toList
  FullDirName := "{full_dir_name}".toList
  Workspace := "{workspace}".toList
  WorkspaceFolder := "{workspace_folder}".toList
  WorkspaceAndFolder := "{workspace_and_folder}".toList
  LanguageLowerCase := "{lang}".toList
  LanguageTitleCase := "{Lang}".toList
  LanguageUpperCase := "{LANG}".toList
  TotalLines := "{total_lines}".toList
  CurrentLine := "{current_line}".toList
  CurrentColumn := "{current_column}".toList
  FileSize := "{file_size}".toList
  AppName := "{app_name}".toList
  GitRepoName := "{git_repo_name}".toList
  GitBranch := "{git_branch}".toList
  EMPTY := []
  UNKNOWN_GIT_BRANCH := "Unknown".toList
  UNKNOWN_GIT_REPO_NAME := "Unknown".toList
  FILE_SIZES := [" bytes".toList, "kb".toList, "mb".toList, "gb".toList, "tb".toList]
  IDLE_IMAGE_KEY := "idle-vscode".toList
  DEBUG_IMAGE_KEY := "debug".toList
  VSCODE_IMAGE_KEY := "vscode".toList
  VSCODE_INSIDERS_IMAGE_KEY := "vscode-insiders".toList

/-- A sample host state: no active editor, no workspace, no git
integration, a 500-byte active file, `Date.now() = 1000`. -/
def sampleEnv : Env where
  appName := "Visual Studio Code".toList
  activeDebugSession := false
  activeTextEditor := none
  workspaceName := none
  workspaceFolder := none
  gitAPI := none
  statSize := 500
  now := 1000
  numToLocale := fun n => (Nat.repr n).toList
  resolveFileIcon := fun _ => "typescript".toList
  asRelativePath := fun s => s

/-- A sample configuration with token-free templates. -/
def sampleCfg : Config where
  detailsIdling := "idling".toList
  detailsEditing := "editing".toList
  detailsDebugging := "debugging".toList
  lowerDetailsIdling := "low-idling".toList
  lowerDetailsEditing := "low-editing".toList
  lowerDetailsDebugging := "low-debugging".toList
  lowerDetailsNoWorkspaceFound := "No workspace".toList
  largeImageIdling := "Idling".toList
  largeImage := "Editing a file".toList
  smallImage := "VSCode".toList

/-- A sample open document and selection. -/
def sampleDoc : Document where
  fileName := "/home/user/proj/main.ts".toList
  languageId := "typescript".toList
  lineCount := 10

def sampleSel : Selection where
  line := 0
  character := 4

def sampleEd : Editor where
  document := sampleDoc
  selection := sampleSel

/-- Characterization of the division loop: it returns the value divided by
`1000` once per recorded division, stops as soon as the value no longer
exceeds `1000`, and every intermediate value did exceed `1000`. -/
theorem fsLoop_spec (size : ℚ) (div : ℕ) :
    ∃ m, fsLoop size div = (size / 1000 ^ m, div + m) ∧ size / 1000 ^ m ≤ 1000 ∧
      ∀ j, j < m → 1000 < size / 1000 ^ j := by
  induction size, div using fsLoop.induct with
  | case1 size div hgt ih =>
    obtain ⟨m, heq, hle, hmid⟩ := ih
    refine ⟨m + 1, ?_, ?_, ?_⟩
    · rw [fsLoop, if_pos hgt, heq]
      have hq : size / 1000 / 1000 ^ m = size / 1000 ^ (m + 1) := by
        rw [pow_succ]; ring
      have hd : div + 1 + m = div + (m + 1) := by omega
      rw [hq, hd]
    · calc size / 1000 ^ (m + 1) = size / 1000 / 1000 ^ m := by rw [pow_succ]; ring
        _ ≤ 1000 := hle
    · intro j hj
      cases j with
      | zero => simpa using hgt
      | succ j' =>
        have := hmid j' (by omega)
        calc (1000 : ℚ) < size / 1000 / 1000 ^ j' := this
          _ = size / 1000 ^ (j' + 1) := by rw [pow_succ]; ring
  | case2 size div hle =>
    refine ⟨0, ?_, ?_, ?_⟩
    · rw [fsLoop, if_neg hle]
      simp
    · simpa using le_of_not_lt hle
    · intro j hj
      omega

theorem details_none (ks : Constants) (cfg : Config) (env : Env) (i e d : Str)
    (h : env.activeTextEditor = none) :
    details ks cfg env i e d = .ok (replaceFirst i ks.Empty ks.EMPTY) := by
  unfold details
  rw [h]

theorem details_editor (ks : Constants) (cfg : Config) (env : Env) (ed : Editor)
    (i e d : Str) (h : env.activeTextEditor = some ed) :
    details ks cfg env i e d =
      editorDetails ks cfg env ed (if env.activeDebugSession then d else e) := by
  unfold details
  rw [h]

/-- Inversion for a successful `activity` call: both text fields come from
the corresponding `details` calls, the start timestamp carries the previous
one (fresh `Date.now` otherwise), and the `'Log'` early return keeps the
idle image defaults. -/
theorem activity_inv (ks : Constants) (cfg : Config) (env : Env)
    (prev : ActivityPayload) (p : ActivityPayload)
    (h : activity ks cfg env prev = .ok p) :
    ∃ d s,
      details ks cfg env cfg.detailsIdling cfg.detailsEditing cfg.detailsDebugging = .ok d ∧
      details ks cfg env cfg.lowerDetailsIdling cfg.lowerDetailsEditing cfg.lowerDetailsDebugging = .ok s ∧
      p.details = some d ∧ p.state = some s ∧
      p.startTimestamp = some (prev.startTimestamp.getD env.now) ∧
      (∀ ed, env.activeTextEditor = some ed → ed.document.languageId = "Log".toList →
        p.largeImageKey = some ks.IDLE_IMAGE_KEY ∧ p.largeImageText = some cfg.largeImageIdling) := by
  simp only [activity] at h
  split at h
  next e he => exact absurd h (by simp)
  next d0 hd0 =>
    split at h
    next e he => exact absurd h (by simp)
    next s0 hs0 =>
      split at h
      next hnone =>
        obtain rfl := Except.ok.inj h
        exact ⟨d0, s0, hd0, hs0, rfl, rfl, rfl,
          fun ed hed => by rw [hnone] at hed; cases hed⟩
      next ed' hed' =>
        split at h
        next hlog =>
          obtain rfl := Except.ok.inj h
          exact ⟨d0, s0, hd0, hs0, rfl, rfl, rfl, fun ed hed hl => ⟨rfl, rfl⟩⟩
        next hlog =>
          split at h
          next e he => exact absurd h (by simp)
          next d1 hd1 =>
            split at h
            next e he => exact absurd h (by simp)
            next s1 hs1 =>
              obtain rfl := Except.ok.inj h
              obtain rfl := Except.ok.inj hd1
              obtain rfl := Except.ok.inj hs1
              refine ⟨d0, s0, hd0, hs0, rfl, rfl, rfl, ?_⟩
              intro ed hed hl
              rw [hed'] at hed
              obtain rfl := Option.some.inj hed
              exact absurd hl hlog

/-- C1: the returned payload's `startTimestamp` equals the previous
payload's when one is set, and the fresh current time (`Date.now` at call
time, `env.now`) otherwise; threading the returned payload into a
subsequent call preserves it, so it never regresses across successive
calls. -/
theorem claim_C1 (ks : Constants) (cfg : Config) (env : Env)
    (prev : ActivityPayload) (p : ActivityPayload)
    (h : activity ks cfg env prev = .ok p) :
    (∀ t, prev.startTimestamp = some t → p.startTimestamp = some t) ∧
    (prev.startTimestamp = none → p.startTimestamp = some env.now) ∧
    (∀ ks' cfg' env' p', activity ks' cfg' env' p = .ok p' →
      p'.startTimestamp = p.startTimestamp) := by
  obtain ⟨d, s, _, _, _, _, hts, _⟩ := activity_inv ks cfg env prev p h
  refine ⟨?_, ?_, ?_⟩
  · intro t ht
    rw [hts, ht]
    rfl
  · intro ht
    rw [hts, ht]
    rfl
  · intro ks' cfg' env' p' h'
    obtain ⟨d', s', _, _, _, _, hts', _⟩ := activity_inv ks' cfg' env' p p' h'
    rw [hts', hts]
    simp

/-- C7: with no active editor, both text fields of the payload are the
idle templates (with the empty-value token replaced), irrespective of the
debug-session state (the environment, including `activeDebugSession`, is
arbitrary). -/
theorem claim_C7 (ks : Constants) (cfg : Config) (env : Env) (prev : ActivityPayload)
    (hed : env.activeTextEditor = none) :
    ∃ p, activity ks cfg env prev = .ok p ∧
      p.details = some (replaceFirst cfg.detailsIdling ks.Empty ks.EMPTY) ∧
      p.state = some (replaceFirst cfg.lowerDetailsIdling ks.Empty ks.EMPTY) := by
  have hd := details_none ks cfg env cfg.detailsIdling cfg.detailsEditing cfg.detailsDebugging hed
  have hs := details_none ks cfg env cfg.lowerDetailsIdling cfg.lowerDetailsEditing cfg.lowerDetailsDebugging hed
  simp only [activity]
  rw [hd, hs, hed]
  exact ⟨_, rfl, rfl, rfl⟩

/-- C8: with an active editor and an active debug session, both text
fields are produced from the debugging templates — `editorDetails` applied
to `detailsDebugging` / `lowerDetailsDebugging`, with the editing templates
nowhere involved. -/
theorem claim_C8 (ks : Constants) (cfg : Config) (env : Env) (ed : Editor)
    (prev : ActivityPayload) (p : ActivityPayload)
    (hed : env.activeTextEditor = some ed)
    (hdbg : env.activeDebugSession = true)
    (h : activity ks cfg env prev = .ok p) :
    ∃ d s, editorDetails ks cfg env ed cfg.detailsDebugging = .ok d ∧
      editorDetails ks cfg env ed cfg.lowerDetailsDebugging = .ok s ∧
      p.details = some d ∧ p.state = some s := by
  obtain ⟨d, s, hd, hs, hpd, hps, _, _⟩ := activity_inv ks cfg env prev p h
  rw [details_editor ks cfg env ed _ _ _ hed, hdbg, if_pos rfl] at hd
  rw [details_editor ks cfg env ed _ _ _ hed, hdbg, if_pos rfl] at hs
  exact ⟨d, s, hd, hs, hpd, hps⟩

/-- C10: with an active editor whose language id is exactly `'Log'`,
`activity` returns the initially composed state: the large image key and
text keep the idle defaults, while the text fields were computed by
`details`, which (seeing the active editor) used the editing or debugging
template according to the debug-session state. -/
theorem claim_C10 (ks : Constants) (cfg : Config) (env : Env) (ed : Editor)
    (prev : ActivityPayload) (p : ActivityPayload)
    (hed : env.activeTextEditor = some ed)
    (hlog : ed.document.languageId = "Log".toList)
    (h : activity ks cfg env prev = .ok p) :
    p.largeImageKey = some ks.IDLE_IMAGE_KEY ∧
    p.largeImageText = some cfg.largeImageIdling ∧
    ∃ d s, editorDetails ks cfg env ed
        (if env.activeDebugSession then cfg.detailsDebugging else cfg.detailsEditing) = .ok d ∧
      editorDetails ks cfg env ed
        (if env.activeDebugSession then cfg.lowerDetailsDebugging else cfg.lowerDetailsEditing) = .ok s ∧
      p.details = some d ∧ p.state = some s := by
  obtain ⟨d, s, hd, hs, hpd, hps, _, himg⟩ := activity_inv ks cfg env prev p h
  obtain ⟨hk, ht⟩ := himg ed hed hlog
  refine ⟨hk, ht, d, s, ?_, ?_, hpd, hps⟩
  · rw [details_editor ks cfg env ed _ _ _ hed] at hd
    exact hd
  · rw [details_editor ks cfg env ed _ _ _ hed] at hs
    exact hs

def envEdDebug : Env :=
  { sampleEnv with activeTextEditor := some sampleEd, activeDebugSession := true }

def logDoc : Document := { sampleDoc with languageId := "Log".toList }

def logEd : Editor := { document := logDoc, selection := sampleSel }

def envLog : Env := { sampleEnv with activeTextEditor := some logEd }

/-- The payload `activity` returns on `sampleEnv` (idle). -/
def payloadIdle : ActivityPayload where
  details := some ("idling".toList)
  state := some ("low-idling".toList)
  startTimestamp := some 1000
  largeImageKey := some ("idle-vscode".toList)
  largeImageText := some ("Idling".toList)
  smallImageKey := some ("vscode".toList)
  smallImageText := some ("VSCode".toList)

/-- The payload `activity` returns on `envEdDebug` (editor + debugging). -/
def payloadEdDebug : ActivityPayload where
  details := some ("debugging".toList)
  state := some ("low-debugging".toList)
  startTimestamp := some 1000
  largeImageKey := some ("typescript".toList)
  largeImageText := some ("Editing a file".toList)
  smallImageKey := some ("debug".toList)
  smallImageText := some ("VSCode".toList)

/-- The payload `activity` returns on `envLog` (editor with `'Log'`). -/
def payloadLog : ActivityPayload where
  details := some ("editing".toList)
  state := some ("low-editing".toList)
  startTimestamp := some 1000
  largeImageKey := some ("idle-vscode".toList)
  largeImageText := some ("Idling".toList)
  smallImageKey := some ("vscode".toList)
  smallImageText := some ("VSCode".toList)

theorem claim_C1_witness :
    (∀ t, (({} : ActivityPayload)).startTimestamp = some t →
      payloadIdle.startTimestamp = some t) ∧
    ((({} : ActivityPayload)).startTimestamp = none →
      payloadIdle.startTimestamp = some sampleEnv.now) ∧
    (∀ ks' cfg' env' p', activity ks' cfg' env' payloadIdle = .ok p' →
      p'.startTimestamp = payloadIdle.startTimestamp) :=
  claim_C1 defaultConstants sampleCfg sampleEnv {} payloadIdle rfl

theorem claim_C7_witness :
    ∃ p, activity defaultConstants sampleCfg sampleEnv {} = .ok p ∧
      p.details = some (replaceFirst sampleCfg.detailsIdling defaultConstants.Empty defaultConstants.EMPTY) ∧
      p.state = some (replaceFirst sampleCfg.lowerDetailsIdling defaultConstants.Empty defaultConstants.EMPTY) :=
  claim_C7 defaultConstants sampleCfg sampleEnv {} rfl

theorem claim_C8_witness :
    ∃ d s, editorDetails defaultConstants sampleCfg envEdDebug sampleEd sampleCfg.detailsDebugging = .ok d ∧
      editorDetails defaultConstants sampleCfg envEdDebug sampleEd sampleCfg.lowerDetailsDebugging = .ok s ∧
      payloadEdDebug.details = some d ∧ payloadEdDebug.state = some s :=
  claim_C8 defaultConstants sampleCfg envEdDebug sampleEd {} payloadEdDebug rfl rfl rfl

theorem claim_C10_witness :
    payloadLog.largeImageKey = some defaultConstants.IDLE_IMAGE_KEY ∧
    payloadLog.largeImageText = some sampleCfg.largeImageIdling ∧
    ∃ d s, editorDetails defaultConstants sampleCfg envLog logEd
        (if envLog.activeDebugSession then sampleCfg.detailsDebugging else sampleCfg.detailsEditing) = .ok d ∧
      editorDetails defaultConstants sampleCfg envLog logEd
        (if envLog.activeDebugSession then sampleCfg.lowerDetailsDebugging else sampleCfg.lowerDetailsEditing) = .ok s ∧
      payloadLog.details = some d ∧ payloadLog.state = some s :=
  claim_C10 defaultConstants sampleCfg envLog logEd {} payloadLog rfl rfl rfl

/-- C9: a template containing none of the recognized tokens is returned
unchanged by the substitution engine `fileDetails`. -/
theorem claim_C9 (ks : Constants) (env : Env) (doc : Document) (sel : Selection) (raw : Str)
    (h1 : strContains raw ks.TotalLines = false)
    (h2 : strContains raw ks.CurrentLine = false)
    (h3 : strContains raw ks.CurrentColumn = false)
    (h4 : strContains raw ks.FileSize = false)
    (h5 : strContains raw ks.GitBranch = false)
    (h6 : strContains raw ks.GitRepoName = false) :
    fileDetails ks env doc sel raw = .ok raw := by
  simp only [fileDetails]
  rw [condReplace_not raw ks.TotalLines objectToLocaleString h1]
  rw [condReplace_not raw ks.CurrentLine (env.numToLocale (sel.line + 1)) h2]
  rw [condReplace_not raw ks.CurrentColumn (env.numToLocale (sel.character + 1)) h3]
  rw [condReplace_not raw ks.FileSize (formatFileSize ks env.statSize) h4]
  rw [condReplace_not raw ks.GitBranch (branchReplacementValue ks env.gitAPI) h5]
  rw [h6]
  simp

theorem claim_C9_witness :
    fileDetails defaultConstants sampleEnv sampleDoc sampleSel ("editing main.ts".toList) =
      .ok ("editing main.ts".toList) :=
  claim_C9 defaultConstants sampleEnv sampleDoc sampleSel ("editing main.ts".toList)
    (by decide) (by decide) (by decide) (by decide) (by decide) (by decide)

/-- C5 counterexample: with the current-line token occurring twice, only
the first occurrence is replaced — the output still contains the token, so
it is not the template with *every* occurrence replaced. -/
theorem claim_C5_counterexample :
    fileDetails defaultConstants sampleEnv sampleDoc sampleSel
        ("{current_line}/{current_line}".toList) =
      .ok ("1/{current_line}".toList) ∧
    strContains ("1/{current_line}".toList) defaultConstants.CurrentLine = true :=
  ⟨rfl, by decide⟩

/-- C5 (amended): each scanned token type is processed exactly once, in
source order, and only the *first* occurrence of a token is replaced by its
computed value; occurrences after the first are left in place (the final
conjunct: a further occurrence of the current-line token inside `post`
survives into the output). -/
theorem claim_C5 (ks : Constants) (env : Env) (doc : Document) (sel : Selection)
    (pre post : Str)
    (hfo : firstOccAt ks.CurrentLine pre post)
    (h1 : strContains (pre ++ ks.CurrentLine ++ post) ks.TotalLines = false)
    (h3 : strContains (pre ++ env.numToLocale (sel.line + 1) ++ post) ks.CurrentColumn = false)
    (h4 : strContains (pre ++ env.numToLocale (sel.line + 1) ++ post) ks.FileSize = false)
    (h5 : strContains (pre ++ env.numToLocale (sel.line + 1) ++ post) ks.GitBranch = false)
    (h6 : strContains (pre ++ env.numToLocale (sel.line + 1) ++ post) ks.GitRepoName = false) :
    fileDetails ks env doc sel (pre ++ ks.CurrentLine ++ post) =
      .ok (pre ++ env.numToLocale (sel.line + 1) ++ post) ∧
    (strContains post ks.CurrentLine = true →
      strContains (pre ++ env.numToLocale (sel.line + 1) ++ post) ks.CurrentLine = true) := by
  constructor
  · simp only [fileDetails]
    rw [condReplace_not (pre ++ ks.CurrentLine ++ post) ks.TotalLines objectToLocaleString h1]
    rw [condReplace_firstOcc ks.CurrentLine pre post (env.numToLocale (sel.line + 1)) hfo]
    rw [condReplace_not _ ks.CurrentColumn (env.numToLocale (sel.character + 1)) h3]
    rw [condReplace_not _ ks.FileSize (formatFileSize ks env.statSize) h4]
    rw [condReplace_not _ ks.GitBranch (branchReplacementValue ks env.gitAPI) h5]
    rw [h6]
    simp
  · intro hp
    exact strContains_append_right (pre ++ env.numToLocale (sel.line + 1)) post ks.CurrentLine hp

theorem claim_C5_witness :
    fileDetails defaultConstants sampleEnv sampleDoc sampleSel
        ([] ++ defaultConstants.CurrentLine ++ "/{current_line}".toList) =
      .ok ([] ++ sampleEnv.numToLocale (sampleSel.line + 1) ++ "/{current_line}".toList) ∧
    (strContains ("/{current_line}".toList) defaultConstants.CurrentLine = true →
      strContains ([] ++ sampleEnv.numToLocale (sampleSel.line + 1) ++ "/{current_line}".toList)
        defaultConstants.CurrentLine = true) :=
  claim_C5 defaultConstants sampleEnv sampleDoc sampleSel [] ("/{current_line}".toList)
    (by decide) (by decide) (by decide) (by decide) (by decide) (by decide)

def mainHead : HeadRef where
  name := some ("main".toList)

def repoUnselected : Repository where
  ui := { selected := false }
  state := { HEAD := some mainHead, remotes := [] }

def gitUnselected : GitAPI where
  repositories := [repoUnselected]

def envGitUnselected : Env := { sampleEnv with gitAPI := some gitUnselected }

/-- C3 counterexample: the git integration is installed and a repository
is open but not selected; the branch token is replaced by `EMPTY` (the
`?? EMPTY` fallback of line 179), not by the fixed "unknown" sentinel the
claim requires for "no repository is active (selected)". -/
theorem claim_C3_counterexample :
    fileDetails defaultConstants envGitUnselected sampleDoc sampleSel defaultConstants.GitBranch =
      .ok ([] : Str) ∧
    ([] : Str) ≠ defaultConstants.UNKNOWN_GIT_BRANCH :=
  ⟨rfl, by decide⟩

/-- C3 (amended): the git-branch and git-repo-name tokens are replaced by
their fixed "unknown" sentinels when no git integration is installed or the
repositories list is empty; when repositories exist but none is selected
the tokens are instead replaced by the empty-value fallback. -/
theorem claim_C3 (ks : Constants) (env : Env) (doc : Document) (sel : Selection)
    (hgit : env.gitAPI = none ∨ ∃ g, env.gitAPI = some g ∧ g.repositories = []) :
    (∀ pre post,
      firstOccAt ks.GitBranch pre post →
      strContains (pre ++ ks.GitBranch ++ post) ks.TotalLines = false →
      strContains (pre ++ ks.GitBranch ++ post) ks.CurrentLine = false →
      strContains (pre ++ ks.GitBranch ++ post) ks.CurrentColumn = false →
      strContains (pre ++ ks.GitBranch ++ post) ks.FileSize = false →
      strContains (pre ++ ks.UNKNOWN_GIT_BRANCH ++ post) ks.GitRepoName = false →
      fileDetails ks env doc sel (pre ++ ks.GitBranch ++ post) =
        .ok (pre ++ ks.UNKNOWN_GIT_BRANCH ++ post)) ∧
    (∀ pre post,
      firstOccAt ks.GitRepoName pre post →
      strContains (pre ++ ks.GitRepoName ++ post) ks.TotalLines = false →
      strContains (pre ++ ks.GitRepoName ++ post) ks.CurrentLine = false →
      strContains (pre ++ ks.GitRepoName ++ post) ks.CurrentColumn = false →
      strContains (pre ++ ks.GitRepoName ++ post) ks.FileSize = false →
      strContains (pre ++ ks.GitRepoName ++ post) ks.GitBranch = false →
      fileDetails ks env doc sel (pre ++ ks.GitRepoName ++ post) =
        .ok (pre ++ ks.UNKNOWN_GIT_REPO_NAME ++ post)) := by
  have hb : branchReplacementValue ks env.gitAPI = ks.UNKNOWN_GIT_BRANCH := by
    rcases hgit with h | ⟨g, hg, hrep⟩
    · rw [h]
      rfl
    · rw [hg]
      simp [branchReplacementValue, hrep]
  have hr : repoNameReplacementValue ks env.gitAPI = .ok ks.UNKNOWN_GIT_REPO_NAME := by
    rcases hgit with h | ⟨g, hg, hrep⟩
    · rw [h]
      rfl
    · rw [hg]
      simp [repoNameReplacementValue, hrep]
  constructor
  · intro pre post hfo h1 h2 h3 h4 h6
    simp only [fileDetails]
    rw [condReplace_not (pre ++ ks.GitBranch ++ post) ks.TotalLines objectToLocaleString h1]
    rw [condReplace_not _ ks.CurrentLine (env.numToLocale (sel.line + 1)) h2]
    rw [condReplace_not _ ks.CurrentColumn (env.numToLocale (sel.character + 1)) h3]
    rw [condReplace_not _ ks.FileSize (formatFileSize ks env.statSize) h4]
    rw [hb]
    rw [condReplace_firstOcc ks.GitBranch pre post ks.UNKNOWN_GIT_BRANCH hfo]
    rw [h6]
    simp
  · intro pre post hfo h1 h2 h3 h4 h5
    simp only [fileDetails]
    rw [condReplace_not (pre ++ ks.GitRepoName ++ post) ks.TotalLines objectToLocaleString h1]
    rw [condReplace_not _ ks.CurrentLine (env.numToLocale (sel.line + 1)) h2]
    rw [condReplace_not _ ks.CurrentColumn (env.numToLocale (sel.character + 1)) h3]
    rw [condReplace_not _ ks.FileSize (formatFileSize ks env.statSize) h4]
    rw [condReplace_not _ ks.GitBranch (branchReplacementValue ks env.gitAPI) h5]
    rw [strContains_firstOcc ks.GitRepoName pre post hfo, if_pos rfl, hr]
    show Except.ok (replaceFirst (pre ++ ks.GitRepoName ++ post) ks.GitRepoName ks.UNKNOWN_GIT_REPO_NAME) =
      Except.ok (pre ++ ks.UNKNOWN_GIT_REPO_NAME ++ post)
    rw [replaceFirst_firstOcc ks.GitRepoName pre post ks.UNKNOWN_GIT_REPO_NAME hfo]

theorem claim_C3_witness :
    sampleEnv.gitAPI = none ∧
    fileDetails defaultConstants sampleEnv sampleDoc sampleSel
        ("on ".toList ++ defaultConstants.GitBranch ++ []) =
      .ok ("on ".toList ++ defaultConstants.UNKNOWN_GIT_BRANCH ++ []) :=
  ⟨rfl,
    (claim_C3 defaultConstants sampleEnv sampleDoc sampleSel (Or.inl rfl)).1
      ("on ".toList) [] (by decide) (by decide) (by decide) (by decide) (by decide) (by decide)⟩

/-- C6: code bug.  Line 145 calls `document.toLocaleString()` instead of
`document.lineCount.toLocaleString()`: the total-lines token is replaced by
the default object stringification `"[object Object]"`, not by the
document's line count formatted as a locale string (here `"10"` for the
10-line `sampleDoc`). -/
theorem claim_C6 :
    fileDetails defaultConstants sampleEnv sampleDoc sampleSel defaultConstants.TotalLines =
      .ok objectToLocaleString ∧
    objectToLocaleString ≠ sampleEnv.numToLocale sampleDoc.lineCount :=
  ⟨rfl, by decide⟩

def repoSelectedNoRemotes : Repository where
  ui := { selected := true }
  state := { HEAD := some mainHead, remotes := [] }

def gitSelectedNoRemotes : GitAPI where
  repositories := [repoSelectedNoRemotes]

def envGitNoRemotes : Env :=
  { sampleEnv with gitAPI := some gitSelectedNoRemotes, activeTextEditor := some sampleEd }

def cfgRepoName : Config := { sampleCfg with detailsEditing := "{git_repo_name}".toList }

/-- C4: code bug.  With a selected repository whose remotes list is empty
and a template containing the git-repo-name token, line 192 evaluates
`.fetchUrl` on the absent `remotes[0]` and throws a `TypeError`: the
substitution engine, and with it the whole assembler, raises instead of
returning a composed payload with a safe fallback. -/
theorem claim_C4 :
    fileDetails defaultConstants envGitNoRemotes sampleDoc sampleSel
        defaultConstants.GitRepoName = .error () ∧
    activity defaultConstants cfgRepoName envGitNoRemotes {} = .error () :=
  ⟨rfl, rfl⟩

/-- C2: the file-size token is replaced by the formatted stat size; a size
of at most 1000 is rendered as the unscaled integer followed by the base
unit suffix; a size above 1000 is divided by 1000 once and then repeatedly
while it exceeds 1000 (`k` divisions in total, with every intermediate
value above 1000), rendered with exactly two decimal places via `toFixed2`
and suffixed with the unit indexed by `k`. -/
theorem claim_C2 (ks : Constants) (env : Env) (doc : Document) (sel : Selection)
    (pre post : Str)
    (hfo : firstOccAt ks.FileSize pre post)
    (h1 : strContains (pre ++ ks.FileSize ++ post) ks.TotalLines = false)
    (h2 : strContains (pre ++ ks.FileSize ++ post) ks.CurrentLine = false)
    (h3 : strContains (pre ++ ks.FileSize ++ post) ks.CurrentColumn = false)
    (h5 : strContains (pre ++ formatFileSize ks env.statSize ++ post) ks.GitBranch = false)
    (h6 : strContains (pre ++ formatFileSize ks env.statSize ++ post) ks.GitRepoName = false) :
    fileDetails ks env doc sel (pre ++ ks.FileSize ++ post) =
      .ok (pre ++ formatFileSize ks env.statSize ++ post) ∧
    (env.statSize ≤ 1000 →
      formatFileSize ks env.statSize =
        (Nat.repr env.statSize).toList ++ ks.FILE_SIZES.getD 0 undefinedStr) ∧
    (1000 < env.statSize → ∃ k, 1 ≤ k ∧
      ((env.statSize : ℚ) / 1000 ^ k ≤ 1000) ∧
      (∀ j, 1 ≤ j → j < k → 1000 < (env.statSize : ℚ) / 1000 ^ j) ∧
      formatFileSize ks env.statSize =
        toFixed2 ((env.statSize : ℚ) / 1000 ^ k) ++ ks.FILE_SIZES.getD k undefinedStr) := by
  refine ⟨?_, ?_, ?_⟩
  · simp only [fileDetails]
    rw [condReplace_not (pre ++ ks.FileSize ++ post) ks.TotalLines objectToLocaleString h1]
    rw [condReplace_not _ ks.CurrentLine (env.numToLocale (sel.line + 1)) h2]
    rw [condReplace_not _ ks.CurrentColumn (env.numToLocale (sel.character + 1)) h3]
    rw [condReplace_firstOcc ks.FileSize pre post (formatFileSize ks env.statSize) hfo]
    rw [condReplace_not _ ks.GitBranch (branchReplacementValue ks env.gitAPI) h5]
    rw [h6]
    simp
  · intro hle
    unfold formatFileSize
    rw [if_neg (by omega)]
  · intro hgt
    obtain ⟨m, heq, hle, hmid⟩ := fsLoop_spec ((env.statSize : ℚ) / 1000) 1
    have hpow : (env.statSize : ℚ) / 1000 / 1000 ^ m = (env.statSize : ℚ) / 1000 ^ (m + 1) := by
      rw [pow_succ]
      ring
    refine ⟨m + 1, by omega, ?_, ?_, ?_⟩
    · rw [← hpow]
      exact hle
    · intro j hj1 hjk
      cases j with
      | zero => omega
      | succ j' =>
        have hm := hmid j' (by omega)
        calc (1000 : ℚ) < (env.statSize : ℚ) / 1000 / 1000 ^ j' := hm
          _ = (env.statSize : ℚ) / 1000 ^ (j' + 1) := by rw [pow_succ]; ring
    · unfold formatFileSize
      rw [if_pos hgt]
      simp only [heq]
      show toFixed2 ((env.statSize : ℚ) / 1000 / 1000 ^ m) ++ ks.FILE_SIZES.getD (1 + m) undefinedStr =
        toFixed2 ((env.statSize : ℚ) / 1000 ^ (m + 1)) ++ ks.FILE_SIZES.getD (m + 1) undefinedStr
      rw [hpow, Nat.add_comm 1 m]

/-- Evaluation of the file-size formatting at the spec's 1,500,000-byte
example: two divisions, two decimals, second-scale unit. -/
theorem formatFileSize_eval_1500000 :
    formatFileSize defaultConstants 1500000 = "1.50mb".toList := by
  have l3 : fsLoop ((3 : ℚ) / 2) 2 = ((3 : ℚ) / 2, 2) := by
    rw [fsLoop, if_neg (by norm_num)]
  have l2 : fsLoop (1500 : ℚ) 1 = ((3 : ℚ) / 2, 2) := by
    rw [fsLoop, if_pos (by norm_num)]
    rw [show (1500 : ℚ) / 1000 = 3 / 2 by norm_num]
    exact l3
  have l1 : fsLoop (((1500000 : ℕ) : ℚ) / 1000) 1 = ((3 : ℚ) / 2, 2) := by
    rw [show (((1500000 : ℕ) : ℚ)) / 1000 = 1500 by norm_num]
    exact l2
  have hfl : ⌊(3 : ℚ) / 2 * 100 + 1 / 2⌋ = (150 : ℤ) := by
    rw [Int.floor_eq_iff]
    constructor <;> norm_num
  unfold formatFileSize
  rw [if_pos (by norm_num)]
  simp only [l1]
  show toFixed2 ((3 : ℚ) / 2) ++ defaultConstants.FILE_SIZES.getD 2 undefinedStr = "1.50mb".toList
  unfold toFixed2
  rw [hfl]
  rfl

def envSize : Env := { sampleEnv with statSize := 1500000 }

theorem claim_C2_witness :
    fileDetails defaultConstants envSize sampleDoc sampleSel
        ([] ++ defaultConstants.FileSize ++ []) =
      .ok ([] ++ formatFileSize defaultConstants envSize.statSize ++ []) ∧
    (envSize.statSize ≤ 1000 →
      formatFileSize defaultConstants envSize.statSize =
        (Nat.repr envSize.statSize).toList ++ defaultConstants.FILE_SIZES.getD 0 undefinedStr) ∧
    (1000 < envSize.statSize → ∃ k, 1 ≤ k ∧
      ((envSize.statSize : ℚ) / 1000 ^ k ≤ 1000) ∧
      (∀ j, 1 ≤ j → j < k → 1000 < (envSize.statSize : ℚ) / 1000 ^ j) ∧
      formatFileSize defaultConstants envSize.statSize =
        toFixed2 ((envSize.statSize : ℚ) / 1000 ^ k) ++ defaultConstants.FILE_SIZES.getD k undefinedStr) :=
  claim_C2 defaultConstants envSize sampleDoc sampleSel [] []
    (by decide) (by decide) (by decide) (by decide)
    (by show strContains ([] ++ formatFileSize defaultConstants 1500000 ++ [])
          defaultConstants.GitBranch = false
        rw [formatFileSize_eval_1500000]
        decide)
    (by show strContains ([] ++ formatFileSize defaultConstants 1500000 ++ [])
          defaultConstants.GitRepoName = false
        rw [formatFileSize_eval_1500000]
        decide)

end Activity
